import Mathlib

/-!
# Verification of the ADGym meta-selection core

Shallow embedding of the two source files of the repository:

* `metaclassifier/meta.py` — the `meta` class: `components_process`,
  `meta_fit`, `meta_predict`, `meta_fit_end2end`, `meta_predict_end2end`,
  and the module-level `run` comparison loop;
* `test_SOTA.py` — the benchmark harness `RunPipeline`: `model_fit` and
  the sweep in `run`.

Modelling conventions:

* pandas cells are `Option ℚ`: `none` stands for a missing value / `NaN`
  (the two are identified, as `pd.isnull` is the only observer the code
  applies to a cell), `some q` for a present numeric value;
* a serialized configuration dictionary (one row label of a results
  table) is an association list `List (String × Option String)`; the
  Python `str(...)` applied to a slot value is modelled as the identity
  on the stored string, since only equality of stringified values is
  ever observed;
* the trained predictor (network plus the fitted min-max scalers) is an
  opaque scoring function `predict : List ℚ → ℕ → List ℕ → ℚ` taking the
  meta-feature vector, the labeled-anomaly count and an encoded
  configuration row; the claims under study quantify over every trained
  predictor, so its numeric internals are irrelevant;
* the precomputed meta-feature store (`.npz` files) is a function
  `String → ℕ → List ℚ` from dataset name and labeled-anomaly count;
* a Python exception escaping a modelled function is an `Except.error`;
  a `for`-loop variable left unbound (`NameError`) or a `KeyError` from
  `.loc` on an absent column is the outer `none` of an
  `Option (Option ℚ)` result.
-/

namespace ADGym

/-- A parsed configuration dictionary: slot name ↦ chosen value
(`none` = Python `None`). -/
abbrev Config := List (String × Option String)

/-- One results table `result-<metric>-test...csv` after
`rename(columns={'Unnamed: 0': 'Components'})`: the parsed `Components`
row labels, the dataset column names, and the numeric grid. -/
structure ResultTable where
  components : List Config
  datasets : List String
  rows : List (List (Option ℚ))
deriving DecidableEq

/-- Slot keys of a configuration dictionary, in order. -/
def cfgKeys (c : Config) : List String := c.map (·.1)

/-- `c[k]` for a configuration dictionary; an absent key is read as
`None` (in the source all rows of one table share the same keys, so the
absent-key case is never exercised on the paths under study). -/
def cfgGet (c : Config) (k : String) : Option String :=
  (c.lookup k).getD none

/-- `options = [str(_[k]) for _ in components_list if _[k] is not None]`
(`components_process`, meta.py line 77). -/
def nonNullOptions (result : List Config) (k : String) : List String :=
  result.filterMap (fun c => cfgGet c k)

/-- `keys_diff` of `components_process` (meta.py lines 73-82): the keys
of the first row label whose non-null stringified value set has more
than one element; a key all of whose values are identical or null is
skipped. -/
def keysDiff (result : List Config) : List String :=
  match result with
  | [] => []
  | c0 :: rest =>
      (cfgKeys c0).filter (fun k => 1 < (nonNullOptions (c0 :: rest) k).dedup.length)

/-- One column of `components_df` after `replace([None], 'None')`
(meta.py lines 85-90). -/
def columnValues (result : List Config) (k : String) : List String :=
  result.map (fun c => (cfgGet c k).getD "None")

/-- Lexicographic comparison of character lists by character code —
the order in which `numpy.unique` (hence
`sklearn.preprocessing.LabelEncoder`) sorts distinct string values. -/
def charListLt : List Char → List Char → Bool
  | [], [] => false
  | [], _ :: _ => true
  | _ :: _, [] => false
  | a :: as, b :: bs =>
      if a.toNat < b.toNat then true
      else if b.toNat < a.toNat then false
      else charListLt as bs

/-- Non-strict string comparison derived from `charListLt`. -/
def strLe (a b : String) : Prop := charListLt b.data a.data = false

instance : DecidableRel strLe := fun a b => by
  unfold strLe
  infer_instance

/-- `sklearn.preprocessing.LabelEncoder().fit_transform` on one column
(meta.py lines 94-95): the distinct values are sorted and each entry is
replaced by the rank of its value. -/
def labelEncode (col : List String) : List ℕ :=
  let classes := List.insertionSort strLe col.dedup
  col.map (fun v => classes.indexOf v)

/-- `components_process` (meta.py lines 68-97): the integer-encoded
component table, one row per input row label, one column per surviving
slot key. -/
def components_process (result : List Config) : List (List ℕ) :=
  (List.range result.length).map
    (fun i => (keysDiff result).map
      (fun k => (labelEncode (columnValues result k)).getD i 0))

/-- `result.drop([test_dataset], axis=1)` (meta.py line 114): `none`
models the `KeyError` pandas raises when the label is absent; on success
every column labelled `d` is removed from the header and from each row. -/
def dropColumn (d : String) (t : ResultTable) : Option ResultTable :=
  if d ∈ t.datasets then
    some { components := t.components
           datasets := t.datasets.filter (fun c => c ≠ d)
           rows := t.rows.map (fun row =>
             ((t.datasets.zip row).filter (fun p => p.1 ≠ d)).map (·.2)) }
  else
    none

/-- Cell `t.loc[i, d]` of a results table: row `i`, dataset column `d`.
An absent column or row reads as `none` here; the callers below guard
the absent-column case (`KeyError`) separately. -/
def cellAt (t : ResultTable) (i : ℕ) (d : String) : Option ℚ :=
  match t.datasets.indexOf? d with
  | some j => (t.rows.getD i []).getD j none
  | none => none

/-- The ranking loop shared by `meta_predict` (meta.py lines 196-199)
and `meta_predict_end2end` (lines 271-274):

    for _ in torch.argsort(-pred.squeeze()):
        pred_performance = result.loc[_.item(), self.test_dataset]
        if not pd.isnull(pred_performance):
            break
    return pred_performance

The outer `none` models the `NameError` of returning the loop variable
after a loop over an empty ranking; otherwise the result is the cell of
the first index whose cell is non-missing, falling through to the last
visited cell when every cell is missing. -/
def selectLoop (cell : ℕ → Option ℚ) : List ℕ → Option (Option ℚ)
  | [] => none
  | [i] => some (cell i)
  | i :: j :: rest =>
      if (cell i).isSome then some (cell i) else selectLoop cell (j :: rest)

/-- Descending-order comparison on score indices, ties broken by index
(the source's `torch.argsort(-pred)` leaves tie order unspecified; the
embedding fixes the stable choice). -/
def rankRel (scores : List ℚ) (i j : ℕ) : Prop :=
  scores.getD j 0 < scores.getD i 0 ∨ (scores.getD i 0 = scores.getD j 0 ∧ i ≤ j)

instance (scores : List ℚ) : DecidableRel (rankRel scores) := by
  intro i j
  unfold rankRel
  infer_instance

instance (scores : List ℚ) : IsTotal ℕ (rankRel scores) := by
  constructor
  intro i j
  rcases lt_trichotomy (scores.getD i 0) (scores.getD j 0) with h | h | h
  · exact Or.inr (Or.inl h)
  · rcases Nat.le_total i j with hij | hij
    · exact Or.inl (Or.inr ⟨h, hij⟩)
    · exact Or.inr (Or.inr ⟨h.symm, hij⟩)
  · exact Or.inl (Or.inl h)

instance (scores : List ℚ) : IsTrans ℕ (rankRel scores) := by
  constructor
  intro i j k hij hjk
  rcases hij with hij | ⟨hij, hij'⟩
  · rcases hjk with hjk | ⟨hjk, _⟩
    · exact Or.inl (hjk.trans hij)
    · exact Or.inl (hjk ▸ hij)
  · rcases hjk with hjk | ⟨hjk, hjk'⟩
    · exact Or.inl (hij ▸ hjk)
    · exact Or.inr ⟨hij.trans hjk, hij'.trans hjk'⟩

/-- `torch.argsort(-pred.squeeze())` (meta.py line 196): the indices
`0, …, n-1` of the score vector, ordered by descending score. -/
def argsortDesc (scores : List ℚ) : List ℕ :=
  List.insertionSort (rankRel scores) (List.range scores.length)

/-- `meta_predict` (meta.py lines 169-201): score every row of the
stored encoded-component table for the target dataset and count, rank
by descending prediction, reload the results table for `testLa` (with
its target column still present) and walk the ranking through the
leakage-guard loop.  `predict` is the trained predictor (network plus
fitted scalers), `store` the meta-feature store.  The outer `none`
covers the two exceptional exits of the source: `KeyError` when the
target column is absent from the reloaded table and `NameError` when
the ranking is empty. -/
def meta_predict (predict : List ℚ → ℕ → List ℕ → ℚ) (store : String → ℕ → List ℚ)
    (comps : List (List ℕ)) (tables : ℕ → ResultTable)
    (testDataset : String) (testLa : ℕ) : Option (Option ℚ) :=
  let scores := comps.map (fun row => predict (store testDataset testLa) testLa row)
  let result := tables testLa
  if testDataset ∈ result.datasets then
    selectLoop (fun i => cellAt result i testDataset) (argsortDesc scores)
  else
    none

/-- One training example of the two-stage pool (meta.py lines 127-132):
meta-feature vector, labeled-anomaly count, encoded configuration row,
target performance; `dataset` records which column the cell came from. -/
structure TrainExample where
  dataset : String
  la : ℕ
  metaFeature : List ℚ
  comps : List ℕ
  perf : ℚ
deriving DecidableEq

/-- The fixed candidate list of labeled-anomaly counts
(`for la in [5, 10, 25, 50]`, meta.py lines 108 and 208). -/
def laCandidates : List ℕ := [5, 10, 25, 50]

/-- The inner double loop of `meta_fit` (meta.py lines 120-132): for
every row `i` and every dataset column `j` of the (column-dropped)
table, emit one example when the cell is non-missing and the column is
not the held-out dataset (the second conjunct of line 122; after the
drop it is always true). -/
def tableExamples (t : ResultTable) (la : ℕ) (cdi : List (List ℕ))
    (d : String) (store : String → ℕ → List ℚ) : List TrainExample :=
  (List.range t.rows.length).flatMap (fun i =>
    (List.range t.datasets.length).filterMap (fun j =>
      ((t.rows.getD i []).getD j none).bind (fun v =>
        if t.datasets.getD j "" ≠ d then
          some { dataset := t.datasets.getD j ""
                 la := la
                 metaFeature := store (t.datasets.getD j "") la
                 comps := cdi.getD i []
                 perf := v }
        else
          none)))

/-- The `for la` loop of `meta_fit` (meta.py lines 108-132), carrying
the example pool and the current `self.components_df_index`.  Each
iteration loads the table for `la`, drops the held-out column (a
`KeyError`, i.e. `.error`, when absent), recomputes the encoded
component table and appends that table's examples. -/
def meta_fit_loop (tables : ℕ → ResultTable) (d : String)
    (store : String → ℕ → List ℚ) :
    List TrainExample → List (List ℕ) → List ℕ →
    Except String (List TrainExample × List (List ℕ))
  | acc, cdi, [] => .ok (acc, cdi)
  | acc, _, la :: rest =>
      match dropColumn d (tables la) with
      | none => .error "KeyError: column not found in axis"
      | some t =>
          let cdi := components_process t.components
          meta_fit_loop tables d store (acc ++ tableExamples t la cdi d store) cdi rest

/-- The training-set-assembly part of `meta_fit` (meta.py lines
102-134): the pool of examples over all four candidate counts together
with the final stored `self.components_df_index`.  The scaling,
tensor conversion and gradient steps that follow in the source read the
pool but do not change it. -/
def meta_fit (tables : ℕ → ResultTable) (d : String)
    (store : String → ℕ → List ℚ) :
    Except String (List TrainExample × List (List ℕ)) :=
  meta_fit_loop tables d store [] [] laCandidates

/-- One training example of the end-to-end pool (meta.py lines
230-235); the raw `X_train`/`y_train` arrays come from the data
generator for `dataset`, so recording the dataset name captures their
provenance. -/
structure E2EExample where
  dataset : String
  la : ℕ
  comps : List ℕ
  perf : ℚ
deriving DecidableEq

/-- The inner loops of `meta_fit_end2end` (meta.py lines 221-237):
outer loop over dataset columns, inner loop over configuration rows,
one example per non-missing cell (no explicit held-out-column check
here; the source relies on the drop). -/
def tableExamplesE2E (t : ResultTable) (la : ℕ) (cdi : List (List ℕ)) : List E2EExample :=
  (List.range t.datasets.length).flatMap (fun i =>
    (List.range t.rows.length).filterMap (fun j =>
      ((t.rows.getD j []).getD i none).map (fun v =>
        { dataset := t.datasets.getD i ""
          la := la
          comps := cdi.getD j []
          perf := v })))

/-- `meta_fit_end2end` (meta.py lines 203-250).  The body of the
`for la in [5, 10, 25, 50]` loop ends with `return self` (line 250,
inside the loop), so only the first candidate count is ever processed:
the embedding matches on the head of the candidate list and returns
after it. -/
def meta_fit_end2end (tables : ℕ → ResultTable) (d : String) :
    Except String (List E2EExample × List (List ℕ)) :=
  match laCandidates with
  | [] => .ok ([], [])
  | la :: _ =>
      match dropColumn d (tables la) with
      | none => .error "KeyError: column not found in axis"
      | some t =>
          let cdi := components_process t.components
          .ok (tableExamplesE2E t la cdi, cdi)

/-- `DataLoader(..., batch_size=512, shuffle=True, drop_last=True)`
(meta.py lines 155-156): with `drop_last=True` an epoch yields
`⌊n/512⌋` full batches of the shuffled order `perm`; their
concatenation, i.e. the set of examples that participate in the epoch,
is the first `⌊n/512⌋·512` elements of `perm`. -/
def batchSize : ℕ := 512

/-- The indices of the pool that participate in one epoch under the
shuffle order `perm` (drop-last semantics, see `batchSize`). -/
def epochParticipants (perm : List ℕ) : List ℕ :=
  perm.take (perm.length / batchSize * batchSize)

/-- Modelled from the spec: the training driver `fit` lives in
`metaclassifier/fit.py`, which is not under `src/`; per the spec it
runs "a fixed number of epochs ... no early stopping, no validation
split".  One entry per epoch, each the participating indices of that
epoch's shuffle. -/
def fitEpochs (nEpochs : ℕ) (shuffles : ℕ → List ℕ) : List (List ℕ) :=
  (List.range nEpochs).map (fun e => epochParticipants (shuffles e))

/-- Outcome record of `RunPipeline.model_fit` (test_SOTA.py lines
148-190): `none` in the duration fields models Python `None`, `none` in
the metric fields models `np.nan`. -/
structure FitOutcome where
  timeFit : Option ℚ
  timeInference : Option ℚ
  aucroc : Option ℚ
  aucpr : Option ℚ
deriving DecidableEq

/-- `RunPipeline.model_fit` (test_SOTA.py lines 148-190).  `init` is
the guarded model construction (first `try`), `fitScore` the guarded
fit/score/metric block (second `try`) on the constructed model.  When
construction fails the source swallows the error, then calls `.fit` on
the un-replaced class object, which raises and is caught by the second
`try`; either failure path returns `None` durations and `NaN` metrics,
and the function itself never raises. -/
def model_fit {σ : Type} (init : Except String σ)
    (fitScore : σ → Except String (ℚ × ℚ × ℚ × ℚ)) : FitOutcome :=
  match init with
  | .error _ => ⟨none, none, none, none⟩
  | .ok s =>
      match fitScore s with
      | .error _ => ⟨none, none, none, none⟩
      | .ok (tf, ti, roc, pr) => ⟨some tf, some ti, some roc, some pr⟩

/-- The four incrementally persisted result tables of the harness sweep
(test_SOTA.py lines 206-209 and 239-247), restricted to one experiment
row: one entry per evaluated model per table. -/
structure SweepTables where
  aucrocT : List (String × Option ℚ)
  aucprT : List (String × Option ℚ)
  timeFitT : List (String × Option ℚ)
  timeInfT : List (String × Option ℚ)
deriving DecidableEq

/-- One iteration of the model loop of `RunPipeline.run`
(test_SOTA.py lines 231-247): fit the model and append its cell to all
four tables. -/
def sweepStep {σ : Type} (init : String → Except String σ)
    (fitScore : String → σ → Except String (ℚ × ℚ × ℚ × ℚ))
    (st : SweepTables) (m : String) : SweepTables :=
  let o := model_fit (init m) (fitScore m)
  { aucrocT := st.aucrocT ++ [(m, o.aucroc)]
    aucprT := st.aucprT ++ [(m, o.aucpr)]
    timeFitT := st.timeFitT ++ [(m, o.timeFit)]
    timeInfT := st.timeInfT ++ [(m, o.timeInference)] }

/-- The model loop of `RunPipeline.run` for one experiment row: every
model of `model_dict` is visited in order, each writing its cell into
the four tables before the loop moves on. -/
def sweep {σ : Type} (models : List String) (init : String → Except String σ)
    (fitScore : String → σ → Except String (ℚ × ℚ × ℚ × ℚ)) : SweepTables :=
  models.foldl (sweepStep init fitScore) ⟨[], [], [], []⟩

/-- One iteration of the comparison loop of `run` (meta.py lines
353-376): the whole train/predict block sits in a `try`; on any
exception the recorded performance is forced to the sentinel `-1`. -/
def comparisonStep (evalTask : ℕ → Except String ℚ) (i : ℕ) : ℚ :=
  match evalTask i with
  | .ok p => p
  | .error _ => -1

/-- The comparison loop of `run` (meta.py lines 307-388) restricted to
the recorded meta-classifier performances: one entry per test task,
errors caught per task. -/
def comparisonLoop (nTasks : ℕ) (evalTask : ℕ → Except String ℚ) : List ℚ :=
  (List.range nTasks).map (comparisonStep evalTask)

/-! ### Concrete instances

Small concrete tables, predictors and stores used to instantiate the
spec's scenarios and to witness or refute the claims. -/

/-- An empty meta-feature store (the feature vectors are irrelevant to
the selection and assembly properties). -/
def noStore : String → ℕ → List ℚ := fun _ _ => []

/-- Spec §8 selection scenario: a predictor whose scores rank the three
configurations `[C2, C1, C3]`, i.e. index order `[1, 0, 2]`. -/
def scenPredict : List ℚ → ℕ → List ℕ → ℚ :=
  fun _ _ row => if row = [1] then 3 else if row = [0] then 2 else 1

/-- Encoded component rows of the three scenario configurations. -/
def scenComps : List (List ℕ) := [[0], [1], [2]]

/-- Spec §8 selection scenario: 3 configurations × 2 datasets, one
missing cell; `C2`'s cell for dataset `A` is missing and `C1`'s holds
`0.87`. -/
def scenTable : ResultTable :=
  { components := [[("model", some "mlp")], [("model", some "gru")], [("model", some "cnn")]]
    datasets := ["A", "B"]
    rows := [[some (87/100), some (1/2)], [none, some (3/5)], [some (1/10), some (7/10)]] }

/-- The scenario table for every labeled-anomaly count. -/
def scenTables : ℕ → ResultTable := fun _ => scenTable

/-- Spec §8 encoder scenario: slot `act` holds `relu` in every row,
slot `act2` holds `relu`, `tanh`, `relu`. -/
def actConfigs : List Config :=
  [[("act", some "relu"), ("act2", some "relu")],
   [("act", some "relu"), ("act2", some "tanh")],
   [("act", some "relu"), ("act2", some "relu")]]

/-- A single one-slot configuration row label. -/
def baseRowCfg : Config := [("f", some "a")]

/-- One configuration, datasets `A` and `D`, `A`-cell missing. -/
def c3TBase : ResultTable := ⟨[baseRowCfg], ["A", "D"], [[none, some (1/2)]]⟩

/-- One configuration, datasets `A` and `D`, `A`-cell present. -/
def c3T10 : ResultTable := ⟨[baseRowCfg], ["A", "D"], [[some (9/10), some (1/2)]]⟩

/-- Table family whose only non-missing `A`-cell sits at count 10. -/
def c3Tables : ℕ → ResultTable := fun la => if la = 10 then c3T10 else c3TBase

/-- One configuration, datasets `A` and `D`, `A`-cell present. -/
def c4T5 : ResultTable := ⟨[baseRowCfg], ["A", "D"], [[some (1/2), none]]⟩

/-- One configuration, datasets `A` and `D`, both cells missing. -/
def c4TBase : ResultTable := ⟨[baseRowCfg], ["A", "D"], [[none, none]]⟩

/-- Table family assembling a one-example training pool (only the
count-5 table has a non-missing cell outside the held-out column). -/
def c4Tables : ℕ → ResultTable := fun la => if la = 5 then c4T5 else c4TBase

/-- The single example assembled from `c4Tables` with held-out `D`. -/
def c4Example : TrainExample := ⟨"A", 5, [], [], 1/2⟩

/-- A table without the held-out column `D`. -/
def noDTable : ResultTable := ⟨[baseRowCfg], ["A"], [[some 1]]⟩

/-- Table family in which the held-out column `D` is absent. -/
def noDTables : ℕ → ResultTable := fun _ => noDTable

/-- Two configurations, one dataset column, every cell missing. -/
def c9Table : ResultTable := ⟨[baseRowCfg, [("f", some "b")]], ["A"], [[none], [none]]⟩

/-- The all-missing table for every labeled-anomaly count. -/
def c9Tables : ℕ → ResultTable := fun _ => c9Table

/-- Two encoded component rows. -/
def c9Comps : List (List ℕ) := [[0], [1]]

/-- A predictor scoring a row by its first code. -/
def idxPredict : List ℚ → ℕ → List ℕ → ℚ := fun _ _ row => (row.getD 0 0 : ℕ)

/-- Two models, the second of which fails at construction. -/
def c7Models : List String := ["good", "bad"]

/-- Guarded construction: fails for model `bad`. -/
def c7Init : String → Except String Unit :=
  fun m => if m = "bad" then .error "construction failure" else .ok ()

/-- Guarded fit/score block: always succeeds. -/
def c7FitScore : String → Unit → Except String (ℚ × ℚ × ℚ × ℚ) :=
  fun _ _ => .ok (1, 1, 1, 1)

/-- Two test tasks, the first of which raises. -/
def c8Eval : ℕ → Except String ℚ :=
  fun i => if i = 0 then .error "task failure" else .ok (1/2)

/-! ### Helper lemmas -/

/-- When some index of the ranking has a non-missing cell, the
selection loop returns the cell of the first such index. -/
theorem selectLoop_found (cell : ℕ → Option ℚ) :
    ∀ l : List ℕ, (∃ i ∈ l, (cell i).isSome) →
      ∃ k, l.find? (fun i => (cell i).isSome) = some k ∧
        selectLoop cell l = some (cell k) := by
  intro l
  induction l with
  | nil => rintro ⟨i, hi, -⟩; cases hi
  | cons a l ih =>
      intro h
      by_cases ha : (cell a).isSome
      · refine ⟨a, ?_, ?_⟩
        · simp [List.find?_cons, ha]
        · cases l with
          | nil => simp [selectLoop]
          | cons b l' => simp [selectLoop, ha]
      · have hex : ∃ i ∈ l, (cell i).isSome := by
          rcases h with ⟨i, hi, hsome⟩
          rcases List.mem_cons.mp hi with rfl | hmem
          · exact absurd hsome ha
          · exact ⟨i, hmem, hsome⟩
        cases l with
        | nil => rcases hex with ⟨i, hi, -⟩; cases hi
        | cons b l' =>
            rcases ih hex with ⟨k, hfind, hsel⟩
            refine ⟨k, ?_, ?_⟩
            · simpa [List.find?_cons, ha] using hfind
            · simpa [selectLoop, ha] using hsel

/-- When every cell of the ranking is missing, the selection loop falls
through and returns the (missing) cell of the last visited index. -/
theorem selectLoop_all_none (cell : ℕ → Option ℚ) :
    ∀ l : List ℕ, l ≠ [] → (∀ i ∈ l, cell i = none) →
      selectLoop cell l = some (cell (l.getLastD 0)) := by
  intro l
  induction l with
  | nil => intro h; exact absurd rfl h
  | cons a l ih =>
      intro _ hnone
      cases l with
      | nil => simp [selectLoop]
      | cons b l' =>
          have ha : cell a = none := hnone a (List.mem_cons_self a _)
          have hrest : ∀ i ∈ b :: l', cell i = none := fun i hi =>
            hnone i (List.mem_cons_of_mem a hi)
          have := ih (by simp) hrest
          simp only [selectLoop, ha, Option.isSome_none, Bool.false_eq_true, if_false]
          simpa [List.getLastD] using this

/-- The ranking is the list of score indices: membership is exactly
boundedness by the number of scores. -/
theorem mem_argsortDesc (scores : List ℚ) (i : ℕ) :
    i ∈ argsortDesc scores ↔ i < scores.length := by
  unfold argsortDesc
  rw [(List.perm_insertionSort (rankRel scores) (List.range scores.length)).mem_iff]
  exact List.mem_range

/-- The ranking has one entry per score. -/
theorem length_argsortDesc (scores : List ℚ) :
    (argsortDesc scores).length = scores.length := by
  unfold argsortDesc
  rw [(List.perm_insertionSort (rankRel scores) (List.range scores.length)).length_eq]
  exact List.length_range _

/-- The ranking walks the scores in descending order. -/
theorem argsortDesc_sorted (scores : List ℚ) :
    (argsortDesc scores).Sorted (fun i j => scores.getD j 0 ≤ scores.getD i 0) := by
  have h := List.sorted_insertionSort (rankRel scores) (List.range scores.length)
  unfold argsortDesc
  refine h.imp ?_
  intro i j hij
  rcases hij with hij | ⟨hij, -⟩
  · exact hij.le
  · exact hij.ge

/-- `drop` raises exactly when the column is absent. -/
theorem dropColumn_eq_none_iff (d : String) (t : ResultTable) :
    dropColumn d t = none ↔ d ∉ t.datasets := by
  unfold dropColumn
  split <;> simp_all

/-- After a successful drop no column named `d` remains. -/
theorem dropColumn_not_mem (d : String) (t t' : ResultTable)
    (h : dropColumn d t = some t') : d ∉ t'.datasets := by
  unfold dropColumn at h
  split at h
  · cases h
    simp
  · cases h

/-- A successful drop means the column was present. -/
theorem dropColumn_mem (d : String) (t t' : ResultTable)
    (h : dropColumn d t = some t') : d ∈ t.datasets := by
  unfold dropColumn at h
  split at h
  · assumption
  · cases h

/-- Every column surviving a successful drop differs from `d`. -/
theorem dropColumn_survivor_ne (d : String) (t t' : ResultTable)
    (h : dropColumn d t = some t') : ∀ c ∈ t'.datasets, c ≠ d := by
  unfold dropColumn at h
  split at h
  · cases h
    intro c hc
    simpa using (List.mem_filter.mp hc).2
  · cases h

/-- The example pool only grows along the `meta_fit` loop. -/
theorem meta_fit_loop_acc_subset (tables : ℕ → ResultTable) (d : String)
    (store : String → ℕ → List ℚ) :
    ∀ (las : List ℕ) (acc : List TrainExample) (cdi : List (List ℕ))
      (pool : List TrainExample) (comps : List (List ℕ)),
      meta_fit_loop tables d store acc cdi las = .ok (pool, comps) →
      ∀ e ∈ acc, e ∈ pool := by
  intro las
  induction las with
  | nil =>
      intro acc cdi pool comps h
      simp only [meta_fit_loop] at h
      cases h
      exact fun e he => he
  | cons la rest ih =>
      intro acc cdi pool comps h
      simp only [meta_fit_loop] at h
      cases hd : dropColumn d (tables la) with
      | none => rw [hd] at h; cases h
      | some t =>
          rw [hd] at h
          intro e he
          exact ih _ _ _ _ h e (List.mem_append_left _ he)

/-- The `meta_fit` loop succeeds exactly when every visited table has
the held-out column. -/
theorem meta_fit_loop_ok_iff (tables : ℕ → ResultTable) (d : String)
    (store : String → ℕ → List ℚ) :
    ∀ (las : List ℕ) (acc : List TrainExample) (cdi : List (List ℕ)),
      (∃ pc, meta_fit_loop tables d store acc cdi las = .ok pc) ↔
        ∀ la ∈ las, d ∈ (tables la).datasets := by
  intro las
  induction las with
  | nil =>
      intro acc cdi
      simp [meta_fit_loop]
  | cons la rest ih =>
      intro acc cdi
      constructor
      · rintro ⟨pc, h⟩
        simp only [meta_fit_loop] at h
        cases hd : dropColumn d (tables la) with
        | none => rw [hd] at h; cases h
        | some t =>
            rw [hd] at h
            intro la' hla'
            rcases List.mem_cons.mp hla' with rfl | hmem
            · exact dropColumn_mem _ _ _ hd
            · exact (ih _ _).mp ⟨pc, h⟩ la' hmem
      · intro hall
        have hmem : d ∈ (tables la).datasets := hall la (List.mem_cons_self _ _)
        cases hd : dropColumn d (tables la) with
        | none => exact absurd hmem ((dropColumn_eq_none_iff _ _).mp hd)
        | some t =>
            have : ∀ la' ∈ rest, d ∈ (tables la').datasets := fun la' h' =>
              hall la' (List.mem_cons_of_mem _ h')
            rcases (ih (acc ++ tableExamples t la (components_process t.components) d store)
              (components_process t.components)).mpr this with ⟨pc, hpc⟩
            exact ⟨pc, by simp only [meta_fit_loop]; rw [hd]; exact hpc⟩

/-- A failing visit makes the whole `meta_fit` loop fail with the
`KeyError`. -/
theorem meta_fit_loop_error (tables : ℕ → ResultTable) (d : String)
    (store : String → ℕ → List ℚ) :
    ∀ (las : List ℕ) (acc : List TrainExample) (cdi : List (List ℕ)),
      (∃ la ∈ las, d ∉ (tables la).datasets) →
      meta_fit_loop tables d store acc cdi las =
        .error "KeyError: column not found in axis" := by
  intro las
  induction las with
  | nil => rintro acc cdi ⟨la, hla, -⟩; cases hla
  | cons la rest ih =>
      rintro acc cdi ⟨la', hla', habs⟩
      simp only [meta_fit_loop]
      rcases List.mem_cons.mp hla' with rfl | hmem
      · rw [(dropColumn_eq_none_iff _ _).mpr habs]
      · cases hd : dropColumn d (tables la) with
        | none => rfl
        | some t => exact ih _ _ ⟨la', hmem, habs⟩

/-- On success the stored component table is the one derived from the
last visited count's (column-dropped) table. -/
theorem meta_fit_loop_final_comps (tables : ℕ → ResultTable) (d : String)
    (store : String → ℕ → List ℚ) :
    ∀ (las : List ℕ) (acc : List TrainExample) (cdi : List (List ℕ))
      (pool : List TrainExample) (comps : List (List ℕ)) (laL : ℕ),
      meta_fit_loop tables d store acc cdi las = .ok (pool, comps) →
      las.getLast? = some laL →
      ∃ t, dropColumn d (tables laL) = some t ∧
        comps = components_process t.components := by
  intro las
  induction las with
  | nil => intro acc cdi pool comps laL h hlast; cases hlast
  | cons la rest ih =>
      intro acc cdi pool comps laL h hlast
      simp only [meta_fit_loop] at h
      cases hd : dropColumn d (tables la) with
      | none => rw [hd] at h; cases h
      | some t =>
          rw [hd] at h
          cases rest with
          | nil =>
              simp only [meta_fit_loop] at h
              cases h
              cases hlast
              exact ⟨t, hd, rfl⟩
          | cons la' rest' =>
              have hlast' : (la' :: rest').getLast? = some laL := by
                rwa [List.getLast?_cons_cons] at hlast
              exact ih _ _ _ _ _ h hlast'

/-- Every example of a visited table's assembly lands in the final
pool. -/
theorem meta_fit_loop_examples_mem (tables : ℕ → ResultTable) (d : String)
    (store : String → ℕ → List ℚ) :
    ∀ (las : List ℕ) (acc : List TrainExample) (cdi : List (List ℕ))
      (pool : List TrainExample) (comps : List (List ℕ)) (la : ℕ) (t : ResultTable),
      meta_fit_loop tables d store acc cdi las = .ok (pool, comps) →
      la ∈ las → dropColumn d (tables la) = some t →
      ∀ e ∈ tableExamples t la (components_process t.components) d store, e ∈ pool := by
  intro las
  induction las with
  | nil => intro acc cdi pool comps la t h hla; cases hla
  | cons la0 rest ih =>
      intro acc cdi pool comps la t h hla hd
      simp only [meta_fit_loop] at h
      rcases List.mem_cons.mp hla with rfl | hmem
      · rw [hd] at h
        intro e he
        exact meta_fit_loop_acc_subset tables d store _ _ _ _ _ h e
          (List.mem_append_right _ he)
      · cases hd0 : dropColumn d (tables la0) with
        | none => rw [hd0] at h; cases h
        | some t0 =>
            rw [hd0] at h
            exact ih _ _ _ _ _ _ h hmem hd

/-- Non-missing cells of a (dropped) table give rise to pool examples. -/
theorem mem_tableExamples_of_cell (t : ResultTable) (la : ℕ)
    (cdi : List (List ℕ)) (d : String) (store : String → ℕ → List ℚ)
    (i j : ℕ) (v : ℚ)
    (hi : i < t.rows.length) (hj : j < t.datasets.length)
    (hcell : (t.rows.getD i []).getD j none = some v)
    (hne : t.datasets.getD j "" ≠ d) :
    ({ dataset := t.datasets.getD j ""
       la := la
       metaFeature := store (t.datasets.getD j "") la
       comps := cdi.getD i []
       perf := v } : TrainExample) ∈ tableExamples t la cdi d store := by
  unfold tableExamples
  rw [List.mem_flatMap]
  refine ⟨i, List.mem_range.mpr hi, ?_⟩
  rw [List.mem_filterMap]
  refine ⟨j, List.mem_range.mpr hj, ?_⟩
  rw [hcell, Option.some_bind, if_pos hne]

/-- Every assembled two-stage example names a column that survived the
drop (via the explicit guard of meta.py line 122). -/
theorem tableExamples_dataset_ne (t : ResultTable) (la : ℕ)
    (cdi : List (List ℕ)) (d : String) (store : String → ℕ → List ℚ) :
    ∀ e ∈ tableExamples t la cdi d store, e.dataset ≠ d := by
  intro e he
  unfold tableExamples at he
  rw [List.mem_flatMap] at he
  rcases he with ⟨i, -, he⟩
  rw [List.mem_filterMap] at he
  rcases he with ⟨j, -, he⟩
  cases hcell : (t.rows.getD i []).getD j none with
  | none => rw [hcell, Option.none_bind] at he; cases he
  | some v =>
      rw [hcell, Option.some_bind] at he
      by_cases hne : t.datasets.getD j "" ≠ d
      · rw [if_pos hne] at he
        cases he
        exact hne
      · rw [if_neg hne] at he
        cases he

/-- Every end-to-end example carries the visited count and names one of
the surviving columns. -/
theorem tableExamplesE2E_mem (t : ResultTable) (la : ℕ) (cdi : List (List ℕ)) :
    ∀ e ∈ tableExamplesE2E t la cdi, e.la = la ∧ e.dataset ∈ t.datasets := by
  intro e he
  unfold tableExamplesE2E at he
  rw [List.mem_flatMap] at he
  rcases he with ⟨i, hi, he⟩
  rw [List.mem_filterMap] at he
  rcases he with ⟨j, -, he⟩
  cases hcell : (t.rows.getD j []).getD i none with
  | none => rw [hcell, Option.map_none'] at he; cases he
  | some v =>
      rw [hcell, Option.map_some'] at he
      cases he
      refine ⟨rfl, ?_⟩
      have hi' : i < t.datasets.length := List.mem_range.mp hi
      rw [List.getD_eq_getElem _ _ hi']
      exact List.getElem_mem hi'

/-- The harness sweep unrolls to one appended cell per model and
table. -/
theorem sweep_foldl_eq {σ : Type} (init : String → Except String σ)
    (fitScore : String → σ → Except String (ℚ × ℚ × ℚ × ℚ)) :
    ∀ (models : List String) (st : SweepTables),
      models.foldl (sweepStep init fitScore) st =
        { aucrocT := st.aucrocT ++
            models.map (fun m => (m, (model_fit (init m) (fitScore m)).aucroc))
          aucprT := st.aucprT ++
            models.map (fun m => (m, (model_fit (init m) (fitScore m)).aucpr))
          timeFitT := st.timeFitT ++
            models.map (fun m => (m, (model_fit (init m) (fitScore m)).timeFit))
          timeInfT := st.timeInfT ++
            models.map (fun m => (m, (model_fit (init m) (fitScore m)).timeInference)) } := by
  intro models
  induction models with
  | nil => intro st; simp
  | cons m ms ih =>
      intro st
      rw [List.foldl_cons, ih]
      simp [sweepStep, List.append_assoc]

/-- The recorded performance of task `i` is the caught evaluation of
task `i`. -/
theorem comparisonLoop_getD (n : ℕ) (evalTask : ℕ → Except String ℚ)
    (i : ℕ) (hi : i < n) :
    (comparisonLoop n evalTask).getD i 0 = comparisonStep evalTask i := by
  unfold comparisonLoop
  rw [List.getD_eq_getElem?_getD, List.getElem?_map, List.getElem?_range hi]
  rfl

/-- When every cell of the ranking is missing, the fall-through result
is a missing value. -/
theorem selectLoop_all_none_eq_none (cell : ℕ → Option ℚ) :
    ∀ l : List ℕ, l ≠ [] → (∀ i ∈ l, cell i = none) →
      selectLoop cell l = some none := by
  intro l
  induction l with
  | nil => intro h; exact absurd rfl h
  | cons a l ih =>
      intro _ hnone
      cases l with
      | nil => simp [selectLoop, hnone a (List.mem_cons_self a _)]
      | cons b l' =>
          have ha : cell a = none := hnone a (List.mem_cons_self a _)
          have hrest : ∀ i ∈ b :: l', cell i = none := fun i hi =>
            hnone i (List.mem_cons_of_mem a hi)
          simp only [selectLoop, ha, Option.isSome_none, Bool.false_eq_true, if_false]
          exact ih (by simp) hrest

/-- Every example of the final pool survives the held-out guard,
provided the starting accumulator does. -/
theorem meta_fit_loop_dataset_ne (tables : ℕ → ResultTable) (d : String)
    (store : String → ℕ → List ℚ) :
    ∀ (las : List ℕ) (acc : List TrainExample) (cdi : List (List ℕ))
      (pool : List TrainExample) (comps : List (List ℕ)),
      meta_fit_loop tables d store acc cdi las = .ok (pool, comps) →
      (∀ e ∈ acc, e.dataset ≠ d) →
      ∀ e ∈ pool, e.dataset ≠ d := by
  intro las
  induction las with
  | nil =>
      intro acc cdi pool comps h hacc
      simp only [meta_fit_loop] at h
      cases h
      exact hacc
  | cons la rest ih =>
      intro acc cdi pool comps h hacc
      simp only [meta_fit_loop] at h
      cases hd : dropColumn d (tables la) with
      | none => rw [hd] at h; cases h
      | some t =>
          rw [hd] at h
          refine ih _ _ _ _ h ?_
          intro e he
          rcases List.mem_append.mp he with he' | he'
          · exact hacc e he'
          · exact tableExamples_dataset_ne _ _ _ _ _ e he'

/-! ### Claim theorems -/

/-- C1: for every trained predictor, target dataset and labeled-anomaly
count, when at least one configuration has a non-missing ground-truth
cell for the target dataset, `meta_predict` walks the configurations in
descending order of predicted performance and returns the ground-truth
value of the first configuration whose cell is non-missing; in
particular the selected configuration always has a non-missing cell,
and in the concrete scenario where the ranking is `[C2, C1, C3]`,
`C2`'s cell is missing and `C1`'s cell holds `0.87`, it returns
`0.87`. -/
theorem C1_selector_leakage_guard :
    (∀ (predict : List ℚ → ℕ → List ℕ → ℚ) (store : String → ℕ → List ℚ)
       (comps : List (List ℕ)) (tables : ℕ → ResultTable) (d : String) (la : ℕ),
       d ∈ (tables la).datasets →
       (∃ i, i < comps.length ∧ (cellAt (tables la) i d).isSome) →
       ∃ sel,
         (argsortDesc (comps.map (fun row => predict (store d la) la row))).find?
             (fun i => (cellAt (tables la) i d).isSome) = some sel ∧
         meta_predict predict store comps tables d la = some (cellAt (tables la) sel d) ∧
         (cellAt (tables la) sel d).isSome ∧
         (argsortDesc (comps.map (fun row => predict (store d la) la row))).Sorted
           (fun i j =>
             (comps.map (fun row => predict (store d la) la row)).getD j 0 ≤
               (comps.map (fun row => predict (store d la) la row)).getD i 0)) ∧
    meta_predict scenPredict noStore scenComps scenTables "A" 5 = some (some (87/100)) := by
  constructor
  · intro predict store comps tables d la hmem hex
    have hex' : ∃ i ∈ argsortDesc (comps.map (fun row => predict (store d la) la row)),
        (cellAt (tables la) i d).isSome := by
      rcases hex with ⟨i, hi, hsome⟩
      refine ⟨i, ?_, hsome⟩
      rw [mem_argsortDesc]
      simpa using hi
    rcases selectLoop_found (fun i => cellAt (tables la) i d) _ hex' with ⟨k, hfind, hsel⟩
    refine ⟨k, hfind, ?_, ?_, argsortDesc_sorted _⟩
    · simp only [meta_predict]
      rw [if_pos hmem]
      exact hsel
    · simpa using List.find?_some hfind
  · rfl

/-- C1 witness: the theorem applied to the spec's concrete scenario. -/
theorem C1_selector_leakage_guard_witness :
    ∃ sel,
      (argsortDesc (scenComps.map (fun row => scenPredict (noStore "A" 5) 5 row))).find?
          (fun i => (cellAt (scenTables 5) i "A").isSome) = some sel ∧
      meta_predict scenPredict noStore scenComps scenTables "A" 5 =
        some (cellAt (scenTables 5) sel "A") ∧
      (cellAt (scenTables 5) sel "A").isSome ∧
      (argsortDesc (scenComps.map (fun row => scenPredict (noStore "A" 5) 5 row))).Sorted
        (fun i j =>
          (scenComps.map (fun row => scenPredict (noStore "A" 5) 5 row)).getD j 0 ≤
            (scenComps.map (fun row => scenPredict (noStore "A" 5) 5 row)).getD i 0) :=
  C1_selector_leakage_guard.1 scenPredict noStore scenComps scenTables "A" 5
    (by decide) ⟨0, by decide, by decide⟩

/-- C2: the component encoder drops exactly those slot keys whose set
of non-null stringified values has cardinality ≤ 1 across all rows, and
retains every other key; a slot with values `relu, relu, relu` is
dropped while a slot with values `relu, tanh, relu` is retained and
encoded into exactly two distinct integer codes. -/
theorem C2_encoder_drops_constant_slots :
    (∀ (c0 : Config) (rest : List Config) (k : String),
       (∀ c ∈ c0 :: rest, cfgKeys c = cfgKeys c0) →
       k ∈ cfgKeys c0 →
       (k ∉ keysDiff (c0 :: rest) ↔
         (nonNullOptions (c0 :: rest) k).dedup.length ≤ 1)) ∧
    ("act" ∉ keysDiff actConfigs ∧
     "act2" ∈ keysDiff actConfigs ∧
     (labelEncode (columnValues actConfigs "act2")).dedup.length = 2 ∧
     components_process actConfigs = [[0], [1], [0]]) := by
  constructor
  · intro c0 rest k _ hk
    have hmem : k ∈ keysDiff (c0 :: rest) ↔
        1 < (nonNullOptions (c0 :: rest) k).dedup.length := by
      simp [keysDiff, List.mem_filter, hk]
    rw [hmem]
    omega
  · refine ⟨by decide, by decide, by decide, by decide⟩

/-- C2 witness: the theorem applied to the spec's concrete encoder
scenario. -/
theorem C2_encoder_drops_constant_slots_witness :
    ("act" ∉ keysDiff actConfigs ↔
      (nonNullOptions actConfigs "act").dedup.length ≤ 1) ∧
    ("act2" ∉ keysDiff actConfigs ↔
      (nonNullOptions actConfigs "act2").dedup.length ≤ 1) :=
  ⟨C2_encoder_drops_constant_slots.1
      [("act", some "relu"), ("act2", some "relu")]
      [[("act", some "relu"), ("act2", some "tanh")],
       [("act", some "relu"), ("act2", some "relu")]]
      "act" (by decide) (by decide),
   C2_encoder_drops_constant_slots.1
      [("act", some "relu"), ("act2", some "relu")]
      [[("act", some "relu"), ("act2", some "tanh")],
       [("act", some "relu"), ("act2", some "relu")]]
      "act2" (by decide) (by decide)⟩

/-- C3 counterexample: with held-out column `D`, the count-10 table has
a non-missing cell after the drop, yet `meta_fit_end2end` (whose
`return self` sits inside the `for la` loop) produces an empty pool —
no `la = 10` example is ever assembled. -/
theorem C3_counterexample_end2end_early_return :
    meta_fit_end2end c3Tables "D" = .ok ([], [[]]) ∧
    dropColumn "D" (c3Tables 10) =
      some ⟨[baseRowCfg], ["A"], [[some (9/10)]]⟩ ∧
    cellAt (⟨[baseRowCfg], ["A"], [[some (9/10)]]⟩ : ResultTable) 0 "A" = some (9/10) ∧
    ¬∃ e : E2EExample, e ∈ ([] : List E2EExample) ∧ e.la = 10 := by
  refine ⟨rfl, rfl, rfl, ?_⟩
  rintro ⟨e, he, -⟩
  cases he

/-- C3 amended: the two-stage pool contains, for every count in
`{5, 10, 25, 50}`, one example per non-missing cell of that count's
column-dropped table; the end-to-end builder, by contrast, returns from
inside its count loop, so every example of its pool carries the first
candidate count `5`. -/
theorem C3_pool_counts_amended :
    (∀ (tables : ℕ → ResultTable) (d : String) (store : String → ℕ → List ℚ)
       (pool : List TrainExample) (comps : List (List ℕ)),
       meta_fit tables d store = .ok (pool, comps) →
       ∀ la ∈ laCandidates, ∀ t, dropColumn d (tables la) = some t →
       ∀ i j v, i < t.rows.length → j < t.datasets.length →
         (t.rows.getD i []).getD j none = some v →
         ({ dataset := t.datasets.getD j ""
            la := la
            metaFeature := store (t.datasets.getD j "") la
            comps := (components_process t.components).getD i []
            perf := v } : TrainExample) ∈ pool) ∧
    (∀ (tables : ℕ → ResultTable) (d : String)
       (poolE : List E2EExample) (compsE : List (List ℕ)),
       meta_fit_end2end tables d = .ok (poolE, compsE) →
       ∀ e ∈ poolE, e.la = 5) := by
  constructor
  · intro tables d store pool comps h la hla t ht i j v hi hj hcell
    have hne : t.datasets.getD j "" ≠ d := by
      have hmem : t.datasets.getD j "" ∈ t.datasets := by
        rw [List.getD_eq_getElem _ _ hj]
        exact List.getElem_mem hj
      exact dropColumn_survivor_ne d (tables la) t ht _ hmem
    exact meta_fit_loop_examples_mem tables d store laCandidates [] [] pool comps la t
      h hla ht _ (mem_tableExamples_of_cell t la (components_process t.components)
        d store i j v hi hj hcell hne)
  · intro tables d poolE compsE h e he
    unfold meta_fit_end2end at h
    simp only [laCandidates] at h
    cases hd : dropColumn d (tables 5) with
    | none => rw [hd] at h; cases h
    | some t =>
        rw [hd] at h
        cases h
        exact (tableExamplesE2E_mem t 5 (components_process t.components) e he).1

/-- C3 witness: the amended theorem applied to the counterexample's
concrete tables (two-stage side at count 10, end-to-end side on the
assembled empty pool). -/
theorem C3_pool_counts_amended_witness :
    ({ dataset := "A"
       la := 10
       metaFeature := noStore "A" 10
       comps := (components_process
         ((⟨[baseRowCfg], ["A"], [[some (9/10)]]⟩ : ResultTable)).components).getD 0 []
       perf := (9/10 : ℚ) } : TrainExample) ∈
      ((meta_fit c3Tables "D" noStore).toOption.getD ([], [])).1 :=
  C3_pool_counts_amended.1 c3Tables "D" noStore _ _ rfl 10 (by decide)
    (⟨[baseRowCfg], ["A"], [[some (9/10)]]⟩ : ResultTable) rfl 0 0 (9/10)
    (by decide) (by decide) rfl

/-- C4 counterexample: `c4Tables` assembles a one-example pool, but the
`drop_last=True` loader yields no batch from a one-element shuffle, so
the single assembled example participates in no epoch — refuting
"every assembled example participates in training each epoch". -/
theorem C4_counterexample_drop_last :
    meta_fit c4Tables "D" noStore = .ok ([c4Example], [[]]) ∧
    epochParticipants [0] = [] ∧
    0 ∉ epochParticipants [0] := by
  refine ⟨rfl, rfl, ?_⟩
  intro h
  cases h

/-- C4 amended: there is no validation split and (per the spec-modelled
fixed-epoch driver) no early stopping, but with `drop_last=True` an
epoch trains on exactly the first `⌊n/512⌋·512` elements of its
shuffle: every example participates only when `512 ∣ n`. -/
theorem C4_full_pool_amended :
    (∀ perm : List ℕ,
       (epochParticipants perm).length = perm.length / batchSize * batchSize ∧
       (batchSize ∣ perm.length → epochParticipants perm = perm)) ∧
    (∀ (n : ℕ) (shuffles : ℕ → List ℕ), (fitEpochs n shuffles).length = n) := by
  constructor
  · intro perm
    constructor
    · unfold epochParticipants
      rw [List.length_take]
      exact Nat.min_eq_left (Nat.div_mul_le_self _ _)
    · intro hdvd
      unfold epochParticipants
      rw [Nat.div_mul_cancel hdvd, List.take_length]
  · intro n shuffles
    unfold fitEpochs
    rw [List.length_map, List.length_range]

/-- C4 witness: a shuffle whose length `512` divides participates in
full. -/
theorem C4_full_pool_amended_witness : epochParticipants [] = [] :=
  (C4_full_pool_amended.1 []).2 ⟨0, rfl⟩

/-- C5: neither training-set builder ever emits an example whose
dataset is the held-out dataset `d`: every emitted example names a
column remaining after `d`'s column has been dropped. -/
theorem C5_no_heldout_dataset_examples :
    (∀ (tables : ℕ → ResultTable) (d : String) (store : String → ℕ → List ℚ)
       (pool : List TrainExample) (comps : List (List ℕ)),
       meta_fit tables d store = .ok (pool, comps) →
       ∀ e ∈ pool, e.dataset ≠ d) ∧
    (∀ (tables : ℕ → ResultTable) (d : String)
       (poolE : List E2EExample) (compsE : List (List ℕ)),
       meta_fit_end2end tables d = .ok (poolE, compsE) →
       ∀ e ∈ poolE, e.dataset ≠ d) := by
  constructor
  · intro tables d store pool comps h
    exact meta_fit_loop_dataset_ne tables d store laCandidates [] [] pool comps h
      (by intro e he; cases he)
  · intro tables d poolE compsE h e he
    unfold meta_fit_end2end at h
    simp only [laCandidates] at h
    cases hd : dropColumn d (tables 5) with
    | none => rw [hd] at h; cases h
    | some t =>
        rw [hd] at h
        cases h
        have hmem := (tableExamplesE2E_mem t 5 (components_process t.components) e he).2
        exact dropColumn_survivor_ne d (tables 5) t hd _ hmem

/-- C5 witness: the sole example assembled from `c4Tables` names a
surviving column. -/
theorem C5_no_heldout_dataset_examples_witness : c4Example.dataset ≠ "D" :=
  C5_no_heldout_dataset_examples.1 c4Tables "D" noStore [c4Example] [[]] rfl
    c4Example (by simp)

/-- C6: when the held-out dataset's column is absent from a loaded
results table, the training-set builder fails loudly with the
`KeyError` of the mandatory drop rather than proceeding; whenever it
does succeed, every visited table had the column and it was dropped. -/
theorem C6_missing_column_fails_loudly :
    ∀ (tables : ℕ → ResultTable) (d : String) (store : String → ℕ → List ℚ),
      ((∃ la ∈ laCandidates, d ∉ (tables la).datasets) →
        meta_fit tables d store = .error "KeyError: column not found in axis") ∧
      (∀ pool comps, meta_fit tables d store = .ok (pool, comps) →
        ∀ la ∈ laCandidates,
          ∃ t, dropColumn d (tables la) = some t ∧ d ∉ t.datasets) := by
  intro tables d store
  constructor
  · intro hex
    exact meta_fit_loop_error tables d store laCandidates [] [] hex
  · intro pool comps h la hla
    have hall := (meta_fit_loop_ok_iff tables d store laCandidates [] []).mp
      ⟨(pool, comps), h⟩
    have hmem := hall la hla
    cases hd : dropColumn d (tables la) with
    | none => exact absurd hmem ((dropColumn_eq_none_iff _ _).mp hd)
    | some t => exact ⟨t, rfl, dropColumn_not_mem _ _ _ hd⟩

/-- C6 witness: the builder on tables lacking column `D` errors out. -/
theorem C6_missing_column_fails_loudly_witness :
    meta_fit noDTables "D" noStore = .error "KeyError: column not found in axis" :=
  (C6_missing_column_fails_loudly noDTables "D" noStore).1 ⟨5, by decide, by decide⟩

/-- C7: `model_fit` never raises — any failure of construction or of
the fit/score block yields `None` durations and `NaN` metrics — and the
sweep still writes a cell for every model into all four result tables
and proceeds through the whole model list. -/
theorem C7_model_fit_never_raises :
    ∀ (σ : Type) (models : List String) (init : String → Except String σ)
      (fitScore : String → σ → Except String (ℚ × ℚ × ℚ × ℚ)) (m : String),
      m ∈ models →
      ((m, (model_fit (init m) (fitScore m)).aucroc) ∈
          (sweep models init fitScore).aucrocT ∧
       (m, (model_fit (init m) (fitScore m)).aucpr) ∈
          (sweep models init fitScore).aucprT ∧
       (m, (model_fit (init m) (fitScore m)).timeFit) ∈
          (sweep models init fitScore).timeFitT ∧
       (m, (model_fit (init m) (fitScore m)).timeInference) ∈
          (sweep models init fitScore).timeInfT) ∧
      (∀ msg, init m = .error msg →
        model_fit (init m) (fitScore m) = ⟨none, none, none, none⟩) ∧
      (∀ s msg, init m = .ok s → fitScore m s = .error msg →
        model_fit (init m) (fitScore m) = ⟨none, none, none, none⟩) ∧
      (sweep models init fitScore).aucrocT.length = models.length := by
  intro σ models init fitScore m hm
  have hs := sweep_foldl_eq init fitScore models ⟨[], [], [], []⟩
  refine ⟨?_, ?_, ?_, ?_⟩
  · unfold sweep
    rw [hs]
    simp only [List.nil_append]
    exact ⟨List.mem_map_of_mem _ hm, List.mem_map_of_mem _ hm,
      List.mem_map_of_mem _ hm, List.mem_map_of_mem _ hm⟩
  · intro msg hinit
    simp only [model_fit, hinit]
  · intro s msg hinit hfs
    simp only [model_fit, hinit, hfs]
  · unfold sweep
    rw [hs]
    simp

/-- C7 witness: the model failing at construction still gets its
all-missing row, and the sweep covers it. -/
theorem C7_model_fit_never_raises_witness :
    model_fit (c7Init "bad") (c7FitScore "bad") = ⟨none, none, none, none⟩ ∧
    ("bad", (model_fit (c7Init "bad") (c7FitScore "bad")).aucroc) ∈
      (sweep c7Models c7Init c7FitScore).aucrocT := by
  obtain ⟨hmem, herr, -, -⟩ :=
    C7_model_fit_never_raises Unit c7Models c7Init c7FitScore "bad" (by decide)
  exact ⟨herr "construction failure" rfl, hmem.1⟩

/-- C8: an exception while training or predicting the meta classifier
is caught at per-test-task granularity, the recorded performance for
that task is forced to the sentinel `-1` (a successful task records its
value), and the loop still visits every task. -/
theorem C8_comparison_loop_sentinel :
    ∀ (n : ℕ) (evalTask : ℕ → Except String ℚ),
      (comparisonLoop n evalTask).length = n ∧
      ∀ i, i < n →
        (∀ msg, evalTask i = .error msg →
          (comparisonLoop n evalTask).getD i 0 = -1) ∧
        (∀ p, evalTask i = .ok p →
          (comparisonLoop n evalTask).getD i 0 = p) := by
  intro n evalTask
  refine ⟨by simp [comparisonLoop], ?_⟩
  intro i hi
  constructor
  · intro msg he
    rw [comparisonLoop_getD n evalTask i hi]
    unfold comparisonStep
    rw [he]
  · intro p he
    rw [comparisonLoop_getD n evalTask i hi]
    unfold comparisonStep
    rw [he]

/-- C8 witness: the failing first task of `c8Eval` records `-1`, the
succeeding second task records its value, and both tasks are visited. -/
theorem C8_comparison_loop_sentinel_witness :
    (comparisonLoop 2 c8Eval).getD 0 0 = -1 ∧
    (comparisonLoop 2 c8Eval).getD 1 0 = 1/2 ∧
    (comparisonLoop 2 c8Eval).length = 2 := by
  obtain ⟨hlen, hi⟩ := C8_comparison_loop_sentinel 2 c8Eval
  exact ⟨(hi 0 (by decide)).1 "task failure" rfl, (hi 1 (by decide)).2 (1/2) rfl, hlen⟩

/-- C9: when every configuration's ground-truth cell for the target
dataset is missing and at least one configuration exists,
`meta_predict` does not raise at the selection step: the ranking walk
falls through without a `break` and the function returns the
(missing/NaN) cell of the lowest-predicted-rank configuration. -/
theorem C9_all_missing_falls_through :
    ∀ (predict : List ℚ → ℕ → List ℕ → ℚ) (store : String → ℕ → List ℚ)
      (comps : List (List ℕ)) (tables : ℕ → ResultTable) (d : String) (la : ℕ),
      comps ≠ [] → d ∈ (tables la).datasets →
      (∀ i, i < comps.length → cellAt (tables la) i d = none) →
      meta_predict predict store comps tables d la =
        some (cellAt (tables la)
          ((argsortDesc (comps.map
            (fun row => predict (store d la) la row))).getLastD 0) d) ∧
      meta_predict predict store comps tables d la = some none := by
  intro predict store comps tables d la hne hmem hnone
  have hlen : (argsortDesc (comps.map (fun row => predict (store d la) la row))).length =
      comps.length := by
    rw [length_argsortDesc, List.length_map]
  have hrank_ne : argsortDesc (comps.map (fun row => predict (store d la) la row)) ≠ [] := by
    intro h
    apply hne
    have := congrArg List.length h
    rw [hlen] at this
    exact List.length_eq_zero.mp this
  have hcells : ∀ i ∈ argsortDesc (comps.map (fun row => predict (store d la) la row)),
      cellAt (tables la) i d = none := by
    intro i hi
    rw [mem_argsortDesc, List.length_map] at hi
    exact hnone i hi
  constructor
  · simp only [meta_predict]
    rw [if_pos hmem]
    exact selectLoop_all_none _ _ hrank_ne hcells
  · simp only [meta_predict]
    rw [if_pos hmem]
    exact selectLoop_all_none_eq_none _ _ hrank_ne hcells

/-- C9 witness: the theorem applied to the concrete all-missing
table. -/
theorem C9_all_missing_falls_through_witness :
    meta_predict idxPredict noStore c9Comps c9Tables "A" 5 =
      some (cellAt (c9Tables 5)
        ((argsortDesc (c9Comps.map
          (fun row => idxPredict (noStore "A" 5) 5 row))).getLastD 0) "A") ∧
    meta_predict idxPredict noStore c9Comps c9Tables "A" 5 = some none :=
  C9_all_missing_falls_through idxPredict noStore c9Comps c9Tables "A" 5
    (by decide) (by decide) (by decide)

/-- C10: on success, the component table stored by `meta_fit` is the
one derived from the last candidate count (`la = 50`), and every
subsequent `meta_predict` — for any `test_la`, equal to 50 or not —
ranks exactly that table's rows with its codes while looking ground
truth up in the results table reloaded for `test_la`. -/
theorem C10_predict_uses_last_count_components :
    ∀ (tables : ℕ → ResultTable) (d : String) (store : String → ℕ → List ℚ)
      (pool : List TrainExample) (comps : List (List ℕ)) (t50 : ResultTable),
      meta_fit tables d store = .ok (pool, comps) →
      dropColumn d (tables 50) = some t50 →
      comps = components_process t50.components ∧
      (∀ (predict : List ℚ → ℕ → List ℕ → ℚ) (testLa : ℕ),
        meta_predict predict store comps tables d testLa =
          if d ∈ (tables testLa).datasets then
            selectLoop (fun i => cellAt (tables testLa) i d)
              (argsortDesc ((components_process t50.components).map
                (fun row => predict (store d testLa) testLa row)))
          else none) := by
  intro tables d store pool comps t50 h h50
  obtain ⟨t, ht, hcomps⟩ := meta_fit_loop_final_comps tables d store laCandidates
    [] [] pool comps 50 h (by decide)
  rw [ht] at h50
  cases h50
  refine ⟨hcomps, ?_⟩
  intro predict testLa
  rw [hcomps]
  rfl

/-- C10 witness: for `c4Tables` the stored table is the one from the
count-50 table, not the count-5 table that contributed the pool's only
example. -/
theorem C10_predict_uses_last_count_components_witness :
    ([[]] : List (List ℕ)) = components_process
      ((⟨[baseRowCfg], ["A"], [[none]]⟩ : ResultTable)).components :=
  (C10_predict_uses_last_count_components c4Tables "D" noStore [c4Example] [[]]
    (⟨[baseRowCfg], ["A"], [[none]]⟩ : ResultTable) rfl rfl).1


